import Mathlib

/-!
Verification of the uplt query-to-chart pipeline (src/uplt).

The Python sources are shallowly embedded: Python floats are modelled as
exact rationals (ℚ), Python ints as ℤ, SQL row cells as the `PyVal` sum
type, and fallible Python code (code that can raise) as `Except PyErr`.
The external SQLite engine is modelled as an oracle `Db` mapping query
text to either rows or an engine error, exactly the interface
`execute_query` exposes to the chart builders.
-/

set_option maxRecDepth 100000

namespace Uplt

/-! ## Python primitives -/

/-- Python exception kinds raised by the modelled code. -/
inductive PyErr where
  | valueError
  | typeError
  | indexError
deriving DecidableEq

instance {ε α : Type} [DecidableEq ε] [DecidableEq α] : DecidableEq (Except ε α)
  | .ok a, .ok b =>
    if h : a = b then .isTrue (by rw [h])
    else .isFalse (by intro hh; cases hh; exact h rfl)
  | .ok _, .error _ => .isFalse (by intro h; cases h)
  | .error _, .ok _ => .isFalse (by intro h; cases h)
  | .error a, .error b =>
    if h : a = b then .isTrue (by rw [h])
    else .isFalse (by intro hh; cases hh; exact h rfl)

/-- Whitespace stripped by Python `str.strip()` (the ASCII subset, which is
all the sources ever produce). -/
def isPySpace (c : Char) : Bool :=
  c == ' ' || c == '\t' || c == '\n' || c == '\r' || c == '\x0b' || c == '\x0c'

/-- `str.strip()` on a character list. -/
def pyStripL (cs : List Char) : List Char :=
  ((cs.dropWhile isPySpace).reverse.dropWhile isPySpace).reverse

/-- `str.strip()`. -/
def pyStrip (s : String) : String :=
  String.mk (pyStripL s.data)

/-- Python `int(q)` truncation toward zero of a float, as used on
nonnegative and negative rationals. -/
def pyTrunc (q : ℚ) : ℤ :=
  if 0 ≤ q then ⌊q⌋ else ⌈q⌉

/-- Round-half-even on exact rationals; this is the rounding used by
`format` on floats (idealised: the float has already been replaced by the
rational it denotes). -/
def roundHalfEven (q : ℚ) : ℤ :=
  let f := ⌊q⌋
  let frac := q - f
  if frac < 1/2 then f
  else if 1/2 < frac then f + 1
  else if f % 2 = 0 then f else f + 1

/-- ASCII lower-casing of one character (Python `str.lower` restricted to
the ASCII range actually exercised by the sources). -/
def lowerChar (c : Char) : Char :=
  if 'A' ≤ c ∧ c ≤ 'Z' then Char.ofNat (c.toNat + 32) else c

/-- ASCII upper-casing of one character (Python `str.upper`). -/
def upperChar (c : Char) : Char :=
  if 'a' ≤ c ∧ c ≤ 'z' then Char.ofNat (c.toNat - 32) else c

/-- Fuel-driven base-10 logarithm on naturals; `natLog10F n n` is
`floor (log10 n)` for `n ≥ 1` (the fuel `n` dominates the digit count). -/
def natLog10F : ℕ → ℕ → ℕ
  | 0, _ => 0
  | fuel+1, n => if n < 10 then 0 else natLog10F fuel (n / 10) + 1

/-- `floor (log10 n)` for `n ≥ 1`. -/
def natLog10 (n : ℕ) : ℕ := natLog10F n n

/-- Least `k` with `1 ≤ q * 10^k`, searched with fuel (enough fuel is
always supplied at call sites). -/
def leastPow10 (q : ℚ) : ℕ → ℕ → ℕ
  | 0, k => k
  | fuel+1, k => if 1 ≤ q * (10:ℚ)^k then k else leastPow10 q fuel (k+1)

/-- `floor (log10 q)` for positive rationals, the exact counterpart of
Python's `math.floor(math.log10(x))`. -/
def intLog10 (q : ℚ) : ℤ :=
  if q ≤ 0 then 0
  else if 1 ≤ q then (natLog10 ⌊q⌋.toNat : ℤ)
  else -(leastPow10 q q.den 0 : ℤ)

/-- Decimal digits of a natural, most significant first (fuel-driven;
`n+1` fuel always suffices). -/
def natToDigitsF : ℕ → ℕ → List Char → List Char
  | 0, _, acc => acc
  | fuel+1, n, acc =>
    let d := Char.ofNat (48 + n % 10)
    if n < 10 then d :: acc else natToDigitsF fuel (n / 10) (d :: acc)

/-- Decimal rendering of a natural number. -/
def natToStr (n : ℕ) : String := String.mk (natToDigitsF (n+1) n [])

/-- Decimal rendering of an integer (Python `str(int)`). -/
def intToStr (i : ℤ) : String :=
  if i < 0 then "-" ++ natToStr i.natAbs else natToStr i.toNat

/-- Drop trailing `'0'` characters. -/
def stripTrailingZeros (ds : List Char) : List Char :=
  (ds.reverse.dropWhile (· == '0')).reverse

/-- `format(a, ".6g")` for a positive rational `a` (no sign): round to six
significant digits (half-even), then fixed layout for exponents in
`[-4, 5]` and scientific layout otherwise, trailing zeros removed. -/
def pyG6Pos (a : ℚ) : String :=
  let e0 := intLog10 a
  let scaled := a * (10:ℚ) ^ ((5:ℤ) - e0)
  let m0 := roundHalfEven scaled
  let me : ℤ × ℤ := if m0 = 1000000 then (100000, e0 + 1) else (m0, e0)
  let m := me.1
  let e := me.2
  let ds := natToDigitsF 7 m.toNat []
  if e ≥ 6 ∨ e < -4 then
    let mant := match ds with
      | [] => []
      | d1 :: rest =>
        let r := stripTrailingZeros rest
        if r = [] then [d1] else d1 :: '.' :: r
    let esign := if e ≥ 0 then "+" else "-"
    let eabs := (if e ≥ 0 then e else -e).toNat
    let estr := if eabs < 10 then "0" ++ natToStr eabs else natToStr eabs
    String.mk mant ++ "e" ++ esign ++ estr
  else if e ≥ 0 then
    let ipart := ds.take (e.toNat + 1)
    let fpart := stripTrailingZeros (ds.drop (e.toNat + 1))
    if fpart = [] then String.mk ipart else String.mk ipart ++ "." ++ String.mk fpart
  else
    let zeros := List.replicate ((-e).toNat - 1) '0'
    let fpart := stripTrailingZeros (zeros ++ ds)
    "0." ++ String.mk fpart

/-- Python `f"{x:.6g}"` on the rational denoted by the float `x`. -/
def pyG6 (q : ℚ) : String :=
  if q = 0 then "0" else if q < 0 then "-" ++ pyG6Pos (-q) else pyG6Pos q

/-- Python `f"{x:+.6g}"`. -/
def pyPlusG6 (q : ℚ) : String :=
  if q < 0 then "-" ++ pyG6Pos (-q) else if q = 0 then "+0" else "+" ++ pyG6Pos q

/-- Python `f"{x:+.1f}"`: one decimal digit, half-even rounding, explicit
sign (the sign of the value, so a negative value rounding to zero prints
`-0.0` just as Python does). -/
def pyPlus1f (q : ℚ) : String :=
  let r := roundHalfEven (q * 10)
  let sgn := if q < 0 then "-" else "+"
  sgn ++ natToStr (r.natAbs / 10) ++ "." ++ natToStr (r.natAbs % 10)

/-- Fractional decimal digits by long division, with fuel. -/
def fracDigitsF : ℕ → ℚ → List Char
  | 0, _ => []
  | fuel+1, frac =>
    if frac = 0 then []
    else
      let d := ⌊frac * 10⌋
      Char.ofNat (48 + d.toNat) :: fracDigitsF fuel (frac * 10 - d)

/-- Python `str(x)` / `f"{x}"` on a nonnegative float, idealised on the
denoted rational: the exact decimal expansion when it terminates within 17
digits (which covers every value the sources interpolate into SQL text),
and the 17-digit truncation otherwise. -/
def pyFloatStrPos (a : ℚ) : String :=
  let ip := ⌊a⌋
  let ds := fracDigitsF 17 (a - ip)
  let frac := if ds = [] then "0" else String.mk ds
  natToStr ip.toNat ++ "." ++ frac

/-- Python `str(float)`. -/
def pyFloatStr (q : ℚ) : String :=
  if q < 0 then "-" ++ pyFloatStrPos (-q) else pyFloatStrPos q

/-- One SQL cell as the chart code sees it: a Python int, float, str or
None. -/
inductive PyVal where
  | vint (n : ℤ)
  | vnum (q : ℚ)
  | vstr (s : String)
  | vnone
deriving DecidableEq

/-- Python `==` on cell values (ints and floats compare numerically). -/
def pyEq : PyVal → PyVal → Bool
  | .vint a, .vint b => a == b
  | .vint a, .vnum b => (a : ℚ) == b
  | .vnum a, .vint b => a == (b : ℚ)
  | .vnum a, .vnum b => a == b
  | .vstr a, .vstr b => a == b
  | .vnone, .vnone => true
  | _, _ => false

/-- Python `str()` on a cell value. -/
def pyStr : PyVal → String
  | .vint n => intToStr n
  | .vnum q => pyFloatStr q
  | .vstr s => s
  | .vnone => "None"

/-- Decimal value of a digit list. -/
def digitsVal (ds : List Char) : ℕ :=
  ds.foldl (fun acc c => acc * 10 + (c.toNat - 48)) 0

/-- Python `float(s)` on a string: optional sign, decimal digits with an
optional single point, surrounded by whitespace (the decimal core of
Python's float grammar; exponents and `inf`/`nan` are never produced by
the data paths modelled here). `none` models the `ValueError`. -/
def pyFloatParse (s : String) : Option ℚ :=
  let cs := pyStripL s.data
  let sc : ℚ × List Char := match cs with
    | '-' :: r => (-1, r)
    | '+' :: r => (1, r)
    | r => (1, r)
  let sgn := sc.1
  let cs2 := sc.2
  let ipart := cs2.takeWhile Char.isDigit
  let rest := cs2.drop ipart.length
  match rest with
  | [] => if ipart = [] then none else some (sgn * (digitsVal ipart : ℚ))
  | '.' :: fr =>
    if fr.all Char.isDigit ∧ (ipart ≠ [] ∨ fr ≠ []) then
      some (sgn * ((digitsVal ipart : ℚ) + (digitsVal fr : ℚ) / (10:ℚ)^(fr.length)))
    else none
  | _ => none

/-- Python `int(s)` on a string: optional sign and decimal digits with
surrounding whitespace (underscore separators are not modelled; the CSV
data paths never produce them). `none` models the `ValueError`. -/
def pyIntParse (s : String) : Option ℤ :=
  let cs := pyStripL s.data
  let sc : ℤ × List Char := match cs with
    | '-' :: r => (-1, r)
    | '+' :: r => (1, r)
    | r => (1, r)
  if sc.2 ≠ [] ∧ sc.2.all Char.isDigit then some (sc.1 * (digitsVal sc.2 : ℤ)) else none

/-- Python `float(v)` on a cell value; strings parse or raise
`ValueError`, `None` raises `TypeError`. -/
def pyFloat : PyVal → Except PyErr ℚ
  | .vint n => .ok (n : ℚ)
  | .vnum q => .ok q
  | .vstr s => match pyFloatParse s with
    | some q => .ok q
    | none => .error .valueError
  | .vnone => .error .typeError

/-- `float(v)` inside a `try/except (ValueError, TypeError)` block. -/
def pyFloatOpt (v : PyVal) : Option ℚ := (pyFloat v).toOption

/-- Python `s.ljust(w)`. -/
def ljust (s : String) (w : ℕ) : String :=
  s ++ String.mk (List.replicate (w - s.length) ' ')

/-- Python `s.rjust(w)`. -/
def rjust (s : String) (w : ℕ) : String :=
  String.mk (List.replicate (w - s.length) ' ') ++ s

/-- Python `sep.join(parts)`. -/
def joinSep (sep : String) : List String → String
  | [] => ""
  | p :: rest => rest.foldl (fun acc x => acc ++ sep ++ x) p

/-- Python list indexing `l[i]` with an int index: negative indices count
from the end, out-of-range raises `IndexError`. -/
def pyIndex {α : Type} (l : List α) (i : ℤ) : Except PyErr α :=
  let j := if i < 0 then i + l.length else i
  if h : 0 ≤ j ∧ j.toNat < l.length then .ok (l.get ⟨j.toNat, h.2⟩)
  else .error .indexError

/-- Code-point lexicographic `<` on character lists (Python string `<`). -/
def strLtL : List Char → List Char → Bool
  | [], [] => false
  | [], _ :: _ => true
  | _ :: _, [] => false
  | a :: xs, b :: ys => if a == b then strLtL xs ys else decide (a.toNat < b.toNat)

/-- Python string `<`. -/
def strLtB (a b : String) : Bool := strLtL a.data b.data

/-- Python string `≤`, the order used by `sorted` on strings. -/
def strLe (a b : String) : Prop := strLtB b a = false

instance : DecidableRel strLe := fun a b => by unfold strLe; infer_instance

/-- `sorted(set(l))` on strings: deduplicate, then sort ascending. -/
def sortedDedupStrings (l : List String) : List String :=
  List.insertionSort strLe l.dedup

/-- Largest element of a list of naturals, with a default for `[]`
(Python `max(xs) if xs else d`). -/
def listMaxD (l : List ℕ) (d : ℕ) : ℕ :=
  match l with
  | [] => d
  | a :: r => r.foldl max a

/-- Python left-to-right non-overlapping `str.replace` on character
lists, fuel-driven (fuel = input length suffices for nonempty patterns). -/
def replaceLF (pat rep : List Char) : ℕ → List Char → List Char
  | 0, cs => cs
  | fuel+1, cs =>
    match cs with
    | [] => []
    | c :: rest =>
      if pat ≠ [] ∧ pat.isPrefixOf cs then rep ++ replaceLF pat rep fuel (cs.drop pat.length)
      else c :: replaceLF pat rep fuel rest

/-- Python `s.replace(pat, rep)`. -/
def pyReplace (s pat rep : String) : String :=
  String.mk (replaceLF pat.data rep.data s.data.length s.data)

/-! ## core.py -/

/-- The quote-state update at the top of the scanning loop of
`split_expressions`: an opening quote is recorded when none is open, the
matching character closes it, anything else leaves it unchanged. -/
def quoteUpdate (c : Char) (quote : Option Char) : Option Char :=
  if (c == '"' || c == '\'') && quote == none then some c
  else if some c == quote then none else quote

/-- The scanning loop of `split_expressions` (src/uplt/core.py): `exprs`
is the list built so far, `cur` the current expression, `depth` the
parenthesis depth and `quote` the open quote character, if any.  Quote
state is updated first, exactly as in the source; parentheses and commas
only count when no quote is open after that update. -/
def splitLoop : List Char → List String → List Char → ℤ → Option Char → List String
  | [], exprs, cur, _, _ =>
    if pyStripL cur = [] then exprs else exprs ++ [String.mk (pyStripL cur)]
  | c :: rest, exprs, cur, depth, quote =>
    if quoteUpdate c quote = none then
      if c = '(' then splitLoop rest exprs (cur ++ [c]) (depth + 1) (quoteUpdate c quote)
      else if c = ')' then splitLoop rest exprs (cur ++ [c]) (depth - 1) (quoteUpdate c quote)
      else if c = ',' ∧ depth = 0 then
        splitLoop rest (exprs ++ [String.mk (pyStripL cur)]) [] depth (quoteUpdate c quote)
      else splitLoop rest exprs (cur ++ [c]) depth (quoteUpdate c quote)
    else splitLoop rest exprs (cur ++ [c]) depth (quoteUpdate c quote)

/-- `split_expressions` from src/uplt/core.py. -/
def split_expressions (expr_string : String) : List String :=
  splitLoop expr_string.data [] [] 0 none

/-- Spec-side splitter: the input cut at every comma that sits at
parenthesis depth 0 outside quoted spans (the commas are consumed, the
segments kept verbatim).  Same quote/depth bookkeeping as the spec
describes, but producing raw segments instead of a fold. -/
def specSplitAux : List Char → ℤ → Option Char → List (List Char)
  | [], _, _ => [[]]
  | c :: rest, depth, quote =>
    if quoteUpdate c quote = none ∧ c = ',' ∧ depth = 0 then
      [] :: specSplitAux rest depth (quoteUpdate c quote)
    else
      match specSplitAux rest
        (if quoteUpdate c quote = none ∧ c = '(' then depth + 1
         else if quoteUpdate c quote = none ∧ c = ')' then depth - 1 else depth)
        (quoteUpdate c quote) with
      | [] => [[c]]
      | seg :: segs => (c :: seg) :: segs

/-- Drop the final segment when (and only when) it is the empty string. -/
def dropEmptyTail (l : List String) : List String :=
  if l.getLast? = some "" then l.dropLast else l

/-- Prepend pending characters onto the first segment. -/
def glueHead (cur : List Char) : List (List Char) → List (List Char)
  | [] => [cur]
  | seg :: segs => (cur ++ seg) :: segs

/-- The spec's description of `split_expressions`: split at top-level
commas, trim every segment, drop a final segment that trims to empty. -/
def specSplit (s : String) : List String :=
  dropEmptyTail ((specSplitAux s.data 0 none).map (fun cs => String.mk (pyStripL cs)))

/-- Python `text.split(sep)` for a single-character separator: every
occurrence separates, empty parts are kept. -/
def splitOnChar (sep : Char) : List Char → List (List Char)
  | [] => [[]]
  | c :: rest =>
    if c == sep then [] :: splitOnChar sep rest
    else match splitOnChar sep rest with
      | [] => [[c]]
      | seg :: segs => (c :: seg) :: segs

/-- Python `line.count(c)` for a single character. -/
def countChar (c : Char) (cs : List Char) : ℕ :=
  (cs.filter (· == c)).length

/-- Python `max(iterable, key=...)`: the first element attaining the
maximum, scanning left to right (later elements must be strictly greater
to displace the current best). -/
def argmaxFirst : List (Char × ℕ) → Char × ℕ → Char × ℕ
  | [], best => best
  | p :: rest, best => argmaxFirst rest (if p.2 > best.2 then p else best)

/-- The candidate delimiters of `detect_delimiter`, in priority order. -/
def delimCandidates : List Char := [',', ';', '\t', ' ', '|']

/-- Total occurrences of `d` in the first five lines of `sample`. -/
def delimCount (sample : String) (d : Char) : ℕ :=
  (((splitOnChar '\n' sample.data).take 5).map (countChar d)).sum

/-- `detect_delimiter` from src/uplt/core.py. -/
def detect_delimiter (sample : String) : Char :=
  let counts := delimCandidates.map (fun d => (d, delimCount sample d))
  match counts with
  | [] => ','
  | c0 :: rest => (argmaxFirst rest c0).1

/-- `infer_column_type` from src/uplt/core.py.  A column value is `None`
or a cell value; values that are `None` or whose `str()` strips to empty
are ignored, then all-int wins INTEGER, else all-float wins REAL, else
TEXT. -/
def infer_column_type (values : List PyVal) : String :=
  let non_empty := values.filter
    (fun v => !(v == PyVal.vnone) && !(pyStripL (pyStr v).data == []))
  if non_empty = [] then "TEXT"
  else if non_empty.all (fun v => (pyIntParse (pyStr v)).isSome) then "INTEGER"
  else if non_empty.all (fun v => (pyFloatParse (pyStr v)).isSome) then "REAL"
  else "TEXT"

/-! ## query_builder.py -/

/-- The regex word class `\w` (ASCII part; the whitelisted function names
are all ASCII, and a non-ASCII name falls to the same `(None, …)` result
either way). -/
def isWordChar (c : Char) : Bool := c.isAlphanum || c == '_'

/-- The aggregation whitelist of `parse_aggregation`. -/
def validFuncs : List String := ["avg", "sum", "min", "max", "count"]

/-- `parse_aggregation` from src/uplt/query_builder.py.  The regex
`^(\w+)\((.+)\)$` on the stripped field matches a maximal nonempty word
prefix, an opening parenthesis, a nonempty newline-free body and a final
closing parenthesis; a whitelisted name yields `(some lowered, stripped
args)`, anything else `(none, stripped input)`. -/
def parse_aggregation (field : String) : Option String × String :=
  match (pyStripL field.data).dropWhile isWordChar with
  | '(' :: rest2 =>
    if (pyStripL field.data).takeWhile isWordChar ≠ [] ∧ rest2.getLast? = some ')' ∧
        rest2.dropLast ≠ [] ∧ ¬ ('\n' ∈ rest2.dropLast) then
      if String.mk (((pyStripL field.data).takeWhile isWordChar).map lowerChar) ∈ validFuncs then
        (some (String.mk (((pyStripL field.data).takeWhile isWordChar).map lowerChar)),
          String.mk (pyStripL rest2.dropLast))
      else (none, String.mk (pyStripL field.data))
    else (none, String.mk (pyStripL field.data))
  | _ => (none, String.mk (pyStripL field.data))

/-- Claim-side matcher: the stripped string is a single whitelisted call
`name(args)` spanning the whole string, checked over every split
position. -/
def isAggCall (t : String) : Bool :=
  (List.range t.data.length).any (fun k =>
    let name := t.data.take k
    let rest := t.data.drop k
    name ≠ [] && name.all isWordChar &&
      (match rest with
       | '(' :: r2 =>
         r2.getLast? == some ')' && !(r2.dropLast == []) && !('\n' ∈ r2.dropLast) &&
           decide (String.mk (name.map lowerChar) ∈ validFuncs)
       | _ => false))

/-! ## charts/utils.py (duplicated verbatim in charts.py) -/

/-- The nice-step selection inside `create_numeric_scale`. -/
def niceStep (normalized : ℚ) : ℚ :=
  if normalized ≤ 1 then 1
  else if normalized ≤ 2 then 2
  else if normalized ≤ 5/2 then 5/2
  else if normalized ≤ 5 then 5
  else 10

/-- The scale-building `while current <= stop` loop, fuel-driven.  For a
positive step the supplied fuel equals the loop's iteration count, so the
guard (not the fuel) ends the loop. -/
def scaleLoopFuel (stop step : ℚ) : ℕ → ℚ → List ℚ
  | 0, _ => []
  | fuel+1, current =>
    if current ≤ stop then current :: scaleLoopFuel stop step fuel (current + step)
    else []

/-- The scale-building loop of `create_numeric_scale`: start at `start`,
append while `current ≤ stop`, stepping by `step`. -/
def scaleLoop (stop step current : ℚ) : List ℚ :=
  scaleLoopFuel stop step (⌊(stop - current) / step⌋ + 1).toNat current

/-- `create_numeric_scale` from src/uplt/charts/utils.py. -/
def create_numeric_scale (min_val max_val : ℚ) (target_steps : ℕ) : List ℚ :=
  if min_val = max_val then
    if min_val = 0 then [0]
    else [min_val * (9/10), min_val, min_val * (11/10)]
  else
    let range_val := max_val - min_val
    let raw_step := range_val / (target_steps : ℚ)
    let magnitude := (10:ℚ) ^ (intLog10 raw_step)
    let normalized := raw_step / magnitude
    let step := niceStep normalized * magnitude
    let start := (⌊min_val / step⌋ : ℚ) * step
    let stop := (⌈max_val / step⌉ : ℚ) * step + step * (1/100)
    scaleLoop stop step start

/-- List access used by the bin predicate (all uses are in range). -/
def nth (l : List ℚ) (i : ℕ) : ℚ := l.getD i 0

/-- The scan of `find_bin_index`, counting `i` upward: the first `i` with
`scale[i] ≤ value < scale[i+1]` among the remaining `fuel` indices. -/
def fbiLoopGo (value : ℚ) (scale : List ℚ) : ℕ → ℕ → Option ℕ
  | 0, _ => none
  | fuel+1, i =>
    if nth scale i ≤ value ∧ value < nth scale (i+1) then some i
    else fbiLoopGo value scale fuel (i+1)

/-- The `for i in range(len(scale) - 1)` scan of `find_bin_index`. -/
def fbiLoop (value : ℚ) (scale : List ℚ) : Option ℕ :=
  fbiLoopGo value scale (scale.length - 1) 0

/-- `find_bin_index` from src/uplt/charts/utils.py.  On the empty scale
the final `scale[-1]` lookup raises `IndexError`. -/
def find_bin_index (value : ℚ) (scale : List ℚ) : Except PyErr ℤ :=
  match fbiLoop value scale with
  | some i => .ok (i : ℤ)
  | none =>
    match scale.getLast? with
    | none => .error .indexError
    | some last => if value = last then .ok ((scale.length : ℤ) - 2) else .ok (-1)

/-- The claim's bin predicate: `scale[i] ≤ value < scale[i+1]`. -/
def binPred (value : ℚ) (scale : List ℚ) (i : ℕ) : Prop :=
  i + 1 < scale.length ∧ nth scale i ≤ value ∧ value < nth scale (i+1)

instance (value : ℚ) (scale : List ℚ) (i : ℕ) : Decidable (binPred value scale i) := by
  unfold binPred; infer_instance

/-- Executable form of "some bin of the scale contains the value". -/
def hasBin (value : ℚ) (scale : List ℚ) : Bool :=
  (List.range scale.length).any (fun i => decide (binPred value scale i))

/-! ## charts.py — heatmap -/

/-- One result row from the SQL engine. -/
abbrev Row := List PyVal

/-- The external SQL engine as the chart code sees it through
`execute_query`: query text in, rows or an engine error out. -/
abbrev Db := String → Except PyErr (List Row)

/-- The `try: … except Exception: return None` wrapper shared by the
chart builders. -/
def pyTry (body : Except PyErr (Option String)) : Except PyErr (Option String) :=
  match body with
  | .ok v => .ok v
  | .error _ => .ok none

/-- `[row[i] for row in rows]`, raising `IndexError` on a short row. -/
def rowsCol : List Row → ℤ → Except PyErr (List PyVal)
  | [], _ => .ok []
  | r :: rest, i => do
    let v ← pyIndex r i
    let vs ← rowsCol rest i
    .ok (v :: vs)

/-- `float` applied to every element, first failure raising. -/
def mapPyFloat : List PyVal → Except PyErr (List ℚ)
  | [] => .ok []
  | v :: rest => do
    let q ← pyFloat v
    let qs ← mapPyFloat rest
    .ok (q :: qs)

/-- Python `labels.index(s)` wrapped in `try/except ValueError`. -/
def listIndexOf : List String → String → Option ℕ
  | [], _ => none
  | l :: rest, s => if l = s then some 0 else (listIndexOf rest s).map (· + 1)

/-- The value-expression selection shared by `create_heatmap` and
`create_multi_comparison`: an aggregation call becomes `FUNC(args)`, any
other nonempty field is used raw, a missing field becomes `COUNT(*)`. -/
def valueExprOf (value_field : Option String) : String :=
  match value_field with
  | some vf =>
    match parse_aggregation vf with
    | (some agg, field_name) => String.mk (agg.data.map upperChar) ++ "(" ++ field_name ++ ")"
    | (none, _) => vf
  | none => "COUNT(*)"

/-- `build_axis_query` from src/uplt/charts.py: numeric bounds produce a
binning CASE expression and the scale, anything else the raw field. -/
def build_axis_query (field : String) (min_val max_val : PyVal) (target_bins : ℕ)
    (aliasName : String) : String × Option (List ℚ) × Bool :=
  match pyFloat min_val, pyFloat max_val with
  | .ok min_num, .ok max_num =>
    let scale := create_numeric_scale min_num max_num target_bins
    let case_parts := (List.range (scale.length - 1)).map (fun i =>
      "WHEN " ++ field ++ " >= " ++ pyFloatStr (nth scale i) ++ " AND " ++ field ++
        " < " ++ pyFloatStr (nth scale (i+1)) ++ " THEN " ++ natToStr i)
    let last_part := "WHEN " ++ field ++ " = " ++ pyFloatStr (scale.getLastD 0) ++
      " THEN " ++ intToStr ((scale.length : ℤ) - 2)
    ("CASE " ++ joinSep " " (case_parts ++ [last_part]) ++ " END as " ++ aliasName, some scale, true)
  | _, _ => (field ++ " as " ++ aliasName, none, false)

/-- The range query text of `create_heatmap`. -/
def rangeQuery (x_field y_field table_name : String) : String :=
  "\n    SELECT \n        MIN(" ++ x_field ++ ") as x_min, MAX(" ++ x_field ++
    ") as x_max,\n        MIN(" ++ y_field ++ ") as y_min, MAX(" ++ y_field ++
    ") as y_max\n    FROM " ++ table_name ++ "\n    "

/-- `scale[bin]` where the bin index came back from SQL: an int indexes
(negative indices wrap, out of range raises `IndexError`), anything else
raises `TypeError`. -/
def pyIndexVal (l : List ℚ) (v : PyVal) : Except PyErr ℚ :=
  match v with
  | .vint n => pyIndex l n
  | _ => .error .typeError

/-- The per-row transformation of aggregated query results in
`create_heatmap`: numeric bin indices are mapped back to scale values,
rows with a null bin index are dropped, categorical cells pass through. -/
def transformRows (x_num y_num : Bool) (x_scale y_scale : List ℚ) :
    List Row → Except PyErr (List Row)
  | [] => .ok []
  | row :: rest =>
    match x_num, y_num with
    | true, true =>
      match row with
      | [x_bin, y_bin, value] =>
        if x_bin ≠ .vnone ∧ y_bin ≠ .vnone then do
          let x_val ← pyIndexVal x_scale x_bin
          let y_val ← pyIndexVal y_scale y_bin
          let rest' ← transformRows true true x_scale y_scale rest
          .ok ([.vnum x_val, .vnum y_val, value] :: rest')
        else transformRows true true x_scale y_scale rest
      | _ => .error .valueError
    | true, false =>
      match row with
      | [x_bin, y_val, value] =>
        if x_bin ≠ .vnone then do
          let x_val ← pyIndexVal x_scale x_bin
          let rest' ← transformRows true false x_scale y_scale rest
          .ok ([.vnum x_val, y_val, value] :: rest')
        else transformRows true false x_scale y_scale rest
      | _ => .error .valueError
    | false, true =>
      match row with
      | [x_val, y_bin, value] =>
        if y_bin ≠ .vnone then do
          let y_val ← pyIndexVal y_scale y_bin
          let rest' ← transformRows false true x_scale y_scale rest
          .ok ([x_val, .vnum y_val, value] :: rest')
        else transformRows false true x_scale y_scale rest
      | _ => .error .valueError
    | false, false => do
      let rest' ← transformRows false false x_scale y_scale rest
      .ok (row :: rest')

/-- Grid lookup (`key in grid` / `grid[key]`). -/
def gridGet (grid : List ((ℕ × ℕ) × ℚ)) (k : ℕ × ℕ) : Option ℚ :=
  (grid.find? (fun p => p.1 == k)).map (·.2)

/-- Grid assignment `grid[key] = value` with dict overwrite semantics. -/
def gridSet (grid : List ((ℕ × ℕ) × ℚ)) (k : ℕ × ℕ) (v : ℚ) : List ((ℕ × ℕ) × ℚ) :=
  if grid.any (fun p => p.1 == k) then
    grid.map (fun p => if p.1 == k then (p.1, v) else p)
  else grid ++ [(k, v)]

/-- X grid position of one data point (renderer loop): numeric axes bin
via `find_bin_index` on `float(x_raw)` (both calls can raise, uncaught),
categorical axes look the label up. -/
def xIndexOf (x_is_numeric : Bool) (x_labels : List String) (x_scale : List ℚ)
    (x_raw : PyVal) : Except PyErr (Option ℕ) :=
  if x_is_numeric then do
    let xf ← pyFloat x_raw
    let bi ← find_bin_index xf x_scale
    pure (if bi < 0 then none else some bi.toNat)
  else pure (listIndexOf x_labels (pyStr x_raw))

/-- Y grid position of one data point: the stored scale is the reversed
one, so the bin is found on its reversal and flipped into display
coordinates. -/
def yIndexOf (y_is_numeric : Bool) (y_labels : List String) (y_scale_rev : List ℚ)
    (y_bins : ℕ) (y_raw : PyVal) : Except PyErr (Option ℕ) :=
  if y_is_numeric then do
    let yf ← pyFloat y_raw
    let bi ← find_bin_index yf y_scale_rev.reverse
    if bi < 0 then pure none
    else
      let y_idx := (y_bins : ℤ) - 1 - bi
      pure (if y_idx < 0 ∨ (y_bins : ℤ) ≤ y_idx then none else some y_idx.toNat)
  else pure (listIndexOf y_labels (pyStr y_raw))

/-- The grid-filling loop of `create_heatmap_without_aggregation`: null or
non-numeric values and out-of-grid points are skipped, everything else is
assigned (overwriting) and recorded in `all_values`. -/
def gridLoop (x_is_numeric : Bool) (x_labels : List String) (x_scale : List ℚ)
    (y_is_numeric : Bool) (y_labels : List String) (y_scale_rev : List ℚ) (y_bins : ℕ) :
    List Row → List ((ℕ × ℕ) × ℚ) → List ℚ →
    Except PyErr (List ((ℕ × ℕ) × ℚ) × List ℚ)
  | [], grid, vals => .ok (grid, vals)
  | row :: rest, grid, vals =>
    match row with
    | [x_raw, y_raw, value] =>
      if value = .vnone then
        gridLoop x_is_numeric x_labels x_scale y_is_numeric y_labels y_scale_rev y_bins rest grid vals
      else
        match pyFloatOpt value with
        | none =>
          gridLoop x_is_numeric x_labels x_scale y_is_numeric y_labels y_scale_rev y_bins rest grid vals
        | some numeric_value => do
          let xo ← xIndexOf x_is_numeric x_labels x_scale x_raw
          match xo with
          | none =>
            gridLoop x_is_numeric x_labels x_scale y_is_numeric y_labels y_scale_rev y_bins rest grid vals
          | some x_idx => do
            let yo ← yIndexOf y_is_numeric y_labels y_scale_rev y_bins y_raw
            match yo with
            | none =>
              gridLoop x_is_numeric x_labels x_scale y_is_numeric y_labels y_scale_rev y_bins rest grid vals
            | some y_idx =>
              gridLoop x_is_numeric x_labels x_scale y_is_numeric y_labels y_scale_rev y_bins rest
                (gridSet grid (x_idx, y_idx) numeric_value) (vals ++ [numeric_value])
    | _ => .error .valueError

/-- Glyph choice for one filled cell (src/uplt/charts.py lines 369-412):
the middle glyph when the adjusted minimum equals the maximum, otherwise
`chars[int(normalized * (len(chars)-1))]` clamped into range.  `int` on
the nonnegative normalized value truncates. -/
def shadeChar (chars : String) (char_idx : Option ℕ) (min_val max_val value : ℚ) : Char :=
  match char_idx with
  | some i => chars.data.getD i ' '
  | none =>
    let normalized := (value - min_val) / (max_val - min_val)
    let idx := pyTrunc (normalized * ((chars.length : ℚ) - 1))
    let idx2 := max 0 (min idx ((chars.length : ℤ) - 1))
    chars.data.getD idx2.toNat ' '

/-- The "X-axis: … to …" / "Y-axis: … to …" summary lines (numeric axes
only); `float` on a raw value can raise, and `min`/`max` on an empty
sequence raises `ValueError`. -/
def axisRangeLine (label : String) (numeric : Bool) (raw : List PyVal) :
    Except PyErr (List String) :=
  if numeric then do
    let qs ← mapPyFloat raw
    match qs with
    | [] => .error .valueError
    | q0 :: qrest =>
      .ok [label ++ pyG6 (qrest.foldl min q0) ++ " to " ++ pyG6 (qrest.foldl max q0)]
  else .ok []

/-- `create_heatmap_without_aggregation` from src/uplt/charts.py (the
`width`/`height` parameters of the source are accepted and unused there;
they are omitted here). -/
def create_heatmap_without_aggregation (data : List Row)
    (x_scale? y_scale? : Option (List ℚ)) (chars : String) : Except PyErr String :=
  if data = [] then .ok "No data to plot" else do
    let x_values_raw ← rowsCol data 0
    let y_values_raw ← rowsCol data 1
    let x_is_numeric := x_scale?.isSome
    let y_is_numeric := y_scale?.isSome
    let x_labels := match x_scale? with
      | some xs => xs.map pyG6
      | none => sortedDedupStrings (x_values_raw.map pyStr)
    let x_bins := match x_scale? with
      | some xs => xs.length - 1
      | none => x_labels.length
    let y_labels := match y_scale? with
      | some ys => (ys.map pyG6).reverse
      | none => (sortedDedupStrings (y_values_raw.map pyStr)).reverse
    let y_bins := match y_scale? with
      | some ys => ys.length - 1
      | none => y_labels.length
    let y_scale_rev := (y_scale?.getD []).reverse
    let gv ← gridLoop x_is_numeric x_labels (x_scale?.getD []) y_is_numeric y_labels
      y_scale_rev y_bins data [] []
    let grid := gv.1
    match gv.2 with
    | [] => .ok "No numeric values to plot"
    | v0 :: vrest =>
      let min0 := vrest.foldl min v0
      let max_val := vrest.foldl max v0
      let min_val := if 0 ≤ min0 then 0 else min0
      let char_idx : Option ℕ := if min_val = max_val then some (chars.length / 2) else none
      let x_label_width := listMaxD (x_labels.map String.length) 0
      let y_label_width := listMaxD (y_labels.map String.length) 0
      let hdr_labels := if x_is_numeric then x_labels.dropLast else x_labels
      let header := hdr_labels.foldl (fun acc l => acc ++ rjust l (x_label_width + 1))
        (String.mk (List.replicate (y_label_width + 1) ' '))
      let separator := String.mk (List.replicate (y_label_width + 1) ' ') ++
        String.mk (List.replicate (x_bins * (x_label_width + 1)) '-')
      let dataRows := (List.range y_bins).map (fun y_idx =>
        (List.range x_bins).foldl (fun row x_idx =>
          row ++ (match gridGet grid (x_idx, y_idx) with
            | some value =>
              String.mk (List.replicate x_label_width (shadeChar chars char_idx min_val max_val value))
            | none => String.mk (List.replicate x_label_width ' ')) ++ " ")
          (rjust (y_labels.getD y_idx "") y_label_width ++ "|"))
      let xAxis ← axisRangeLine "X-axis: " x_is_numeric x_values_raw
      let yAxis ← axisRangeLine "Y-axis: " y_is_numeric y_values_raw
      let legend := if min_val = max_val then
          ["Value scale: All values = " ++ pyG6 min_val]
        else
          let step := (max_val - min_val) / (chars.length : ℚ)
          let parts := (List.range chars.length).map (fun (i : ℕ) =>
            let lower := min_val + (i : ℚ) * step
            let upper := min_val + ((i : ℚ) + 1) * step
            "\x27" ++ String.mk [chars.data.getD i ' '] ++ "\x27: [" ++ pyG6 lower ++
              ", " ++ pyG6 upper ++ (if i = chars.length - 1 then "]" else ")"))
          ["Value scale: " ++ joinSep "  " parts]
      .ok (joinSep "\n" ([header, separator] ++ dataRows ++ [""] ++ xAxis ++ yAxis ++ legend))

/-- The glyph a filled cell with value `value` receives, given the list
`all_values` of all gridded values: exactly the min/max/adjusted-min and
`char_idx` computation of `create_heatmap_without_aggregation` followed by
`shadeChar`. -/
def cellChar (all_values : List ℚ) (value : ℚ) : Char :=
  match all_values with
  | [] => ' '
  | v0 :: vrest =>
    let min0 := vrest.foldl min v0
    let max_val := vrest.foldl max v0
    let min_val := if 0 ≤ min0 then 0 else min0
    let chars := " ░▒▓█"
    let char_idx : Option ℕ := if min_val = max_val then some (chars.length / 2) else none
    shadeChar chars char_idx min_val max_val value

/-- The body of `create_heatmap` inside its `try` block. -/
def heatmapBody (db : Db) (x_field y_field : String) (value_field : Option String)
    (table_name : String) (width height : Option ℕ) : Except PyErr (Option String) := do
  let range_results ← db (rangeQuery x_field y_field table_name)
  match range_results with
  | [] => .ok none
  | r0 :: _ =>
    if r0 = [] then .ok none
    else if r0.length = 4 then do
      let x_min := r0.getD 0 .vnone
      let x_max := r0.getD 1 .vnone
      let y_min := r0.getD 2 .vnone
      let y_max := r0.getD 3 .vnone
      let xa := build_axis_query x_field x_min x_max (width.getD 20) "x"
      let ya := build_axis_query y_field y_min y_max (height.getD 15) "y"
      let x_expr := xa.1
      let x_scale? := xa.2.1
      let x_is_numeric := xa.2.2
      let y_expr := ya.1
      let y_scale? := ya.2.1
      let y_is_numeric := ya.2.2
      let value_expr := valueExprOf value_field
      let sp1 := if x_is_numeric then [pyReplace x_expr " as x" "" ++ " as x_bin"] else [x_expr]
      let gp1 := if x_is_numeric then ["x_bin"] else [x_field]
      let hp1 := if x_is_numeric then ["x_bin IS NOT NULL"] else ([] : List String)
      let sp2 := if y_is_numeric then [pyReplace y_expr " as y" "" ++ " as y_bin"] else [y_expr]
      let gp2 := if y_is_numeric then ["y_bin"] else [y_field]
      let hp2 := if y_is_numeric then ["y_bin IS NOT NULL"] else ([] : List String)
      let select_parts := sp1 ++ sp2 ++ [value_expr ++ " as value"]
      let having_parts := hp1 ++ hp2
      let query := "\n        SELECT \n            " ++ joinSep ", " select_parts ++
        "\n        FROM " ++ table_name ++ "\n        WHERE (" ++ x_field ++
        " IS NOT NULL) AND (" ++ y_field ++ " IS NOT NULL)\n        GROUP BY " ++
        joinSep ", " (gp1 ++ gp2) ++ "\n        " ++
        (if having_parts ≠ [] then "\nHAVING " ++ joinSep " AND " having_parts else "")
      let results ← db query
      if results = [] then .ok none
      else do
        let transformed ← transformRows x_is_numeric y_is_numeric (x_scale?.getD [])
          (y_scale?.getD []) results
        let rendered ← create_heatmap_without_aggregation transformed
          (if x_is_numeric then x_scale? else none)
          (if y_is_numeric then y_scale? else none) " ░▒▓█"
        .ok (some rendered)
    else .error .valueError

/-- `create_heatmap` from src/uplt/charts.py: the body runs inside
`try: … except Exception: return None`. -/
def create_heatmap (db : Db) (x_field y_field : String) (value_field : Option String)
    (table_name : String) (width height : Option ℕ) : Except PyErr (Option String) :=
  pyTry (heatmapBody db x_field y_field value_field table_name width height)

/-! ## charts/display_mode.py and charts/multi_comparison.py -/

/-- The display modes for comparison charts. -/
inductive DisplayMode where
  | full
  | compact
  | value
  | diff
  | percent
  | value_diff
  | value_percent
deriving DecidableEq

/-- `DisplayMode.from_string`: the string-to-mode table; an unknown string
raises `ValueError`, modelled as `none`. -/
def DisplayMode.from_string (s : String) : Option DisplayMode :=
  let t := String.mk (s.data.map lowerChar)
  if t = "full" then some .full
  else if t = "compact" then some .compact
  else if t = "value" then some .value
  else if t = "diff" then some .diff
  else if t = "percent" then some .percent
  else if t = "value-diff" then some .value_diff
  else if t = "value-percent" then some .value_percent
  else none

/-- `should_use_original_names` from src/uplt/charts/multi_comparison.py. -/
def should_use_original_names (names : List PyVal) (max_length : ℕ) : Bool :=
  if names = [] then false
  else names.all (fun n => (pyStr n).length ≤ max_length)

/-- `f"{val:.6g}" if isinstance(val, (int, float)) else str(val)`. -/
def pyValG6Str : PyVal → String
  | .vint n => pyG6 (n : ℚ)
  | .vnum q => pyG6 q
  | v => pyStr v

/-- One comparison cell of `create_multi_comparison` (the try block at
src/uplt/charts/multi_comparison.py lines 197-231): `float` failures give
"N/A", a zero baseline with nonzero diff gives the `inf%` sentinel, and
otherwise the percentage `diff/baseline*100` is printed per mode. -/
def formatCompCell (mode : DisplayMode) (baseline_val comp_val : PyVal) : String :=
  match pyFloat baseline_val, pyFloat comp_val with
  | .ok baseline_num, .ok comp_num =>
    let diff := comp_num - baseline_num
    let pctIsInf := baseline_num = 0 ∧ diff ≠ 0
    let pct_diff := if baseline_num ≠ 0 then diff / baseline_num * 100 else 0
    let comp_str := pyValG6Str comp_val
    match mode with
    | .value => comp_str
    | .diff => pyPlusG6 diff
    | .percent | .compact => if pctIsInf then "inf%" else pyPlus1f pct_diff ++ "%"
    | .value_diff => comp_str ++ " (" ++ pyPlusG6 diff ++ ")"
    | .value_percent =>
      if pctIsInf then comp_str ++ " (inf%)"
      else comp_str ++ " (" ++ pyPlus1f pct_diff ++ "%)"
    | .full =>
      if baseline_num ≠ 0 ∨ diff = 0 then
        comp_str ++ " " ++ pyPlusG6 diff ++ " (" ++ pyPlus1f pct_diff ++ "%)"
      else comp_str ++ " " ++ pyPlusG6 diff ++ " (inf%)"
  | _, _ => "N/A"

/-- The distinct-versions query text. -/
def versionQuery (versions_field table_name : String) : String :=
  "\n    SELECT DISTINCT " ++ versions_field ++ "\n    FROM " ++ table_name ++
    "\n    WHERE " ++ versions_field ++ " IS NOT NULL\n    ORDER BY " ++
    versions_field ++ "\n    "

/-- The aggregated metric/version/value query text. -/
def mcDataQuery (metrics_field versions_field value_expr table_name : String) : String :=
  "\n        SELECT \n            " ++ metrics_field ++ " as metric,\n            " ++
    versions_field ++ " as version,\n            " ++ value_expr ++
    " as value\n        FROM " ++ table_name ++ "\n        WHERE " ++ metrics_field ++
    " IS NOT NULL\n        GROUP BY " ++ metrics_field ++ ", " ++ versions_field ++
    "\n        ORDER BY " ++ metrics_field ++ ", " ++ versions_field ++ "\n        "

/-- Python `', '.join(vs)`: every element must be a string, otherwise
`TypeError`. -/
def pyJoinStr (sep : String) (vs : List PyVal) : Except PyErr String :=
  if vs.all (fun v => match v with | .vstr _ => true | _ => false) then
    .ok (joinSep sep (vs.map pyStr))
  else .error .typeError

/-- `versions[0]` / `versions[1:]` used when no baseline override is
given. -/
def firstVersionBaseline : List PyVal → Except PyErr (String ⊕ (PyVal × List PyVal))
  | v0 :: rest => .ok (.inr (v0, rest))
  | [] => .error .indexError

/-- Baseline selection (src/uplt/charts/multi_comparison.py lines 93-102):
a truthy override must be among the versions (else an error message
listing them is returned), otherwise the first version is the baseline
and the rest compare against it.  `.inl` is the early-returned message. -/
def selectBaseline (versions : List PyVal) (baseline : Option String) :
    Except PyErr (String ⊕ (PyVal × List PyVal)) :=
  match baseline with
  | some b =>
    if b = "" then firstVersionBaseline versions
    else if versions.any (fun v => pyEq v (.vstr b)) then
      .ok (.inr (.vstr b, versions.filter (fun v => !(pyEq v (.vstr b)))))
    else do
      let j ← pyJoinStr ", " versions
      .ok (.inl ("Baseline version \x27" ++ b ++ "\x27 not found. Available versions: " ++ j))
  | none => firstVersionBaseline versions

/-- Ordered-dict update `d[k] = v` with Python `==` on keys. -/
def dictSetP (d : List (PyVal × PyVal)) (k v : PyVal) : List (PyVal × PyVal) :=
  if d.any (fun p => pyEq p.1 k) then
    d.map (fun p => if pyEq p.1 k then (p.1, v) else p)
  else d ++ [(k, v)]

/-- Ordered-dict lookup with a default (`d.get(k, default)`). -/
def dictGetPD (d : List (PyVal × PyVal)) (k : PyVal) (dflt : PyVal) : PyVal :=
  match d.find? (fun p => pyEq p.1 k) with
  | some p => p.2
  | none => dflt

/-- `metric_data[metric]` lookup. -/
def dictGetM (d : List (PyVal × List (PyVal × PyVal))) (k : PyVal) : List (PyVal × PyVal) :=
  match d.find? (fun p => pyEq p.1 k) with
  | some p => p.2
  | none => []

/-- Building `metric_data`: an ordered dict from metric to an ordered dict
from version to value, from rows `(metric, version, value)`; a row of any
other arity fails tuple unpacking. -/
def buildMetricDataAux : List Row → List (PyVal × List (PyVal × PyVal)) →
    Except PyErr (List (PyVal × List (PyVal × PyVal)))
  | [], acc => .ok acc
  | row :: rest, acc =>
    match row with
    | [metric, version, value] =>
      let acc' :=
        if acc.any (fun p => pyEq p.1 metric) then
          acc.map (fun p => if pyEq p.1 metric then (p.1, dictSetP p.2 version value) else p)
        else acc ++ [(metric, dictSetP [] version value)]
      buildMetricDataAux rest acc'
    | _ => .error .valueError

/-- Is the value a Python number (int or float)? -/
def isNumV : PyVal → Bool
  | .vint _ => true
  | .vnum _ => true
  | _ => false

/-- Numeric value of a number cell. -/
def numOf : PyVal → ℚ
  | .vint n => (n : ℚ)
  | .vnum q => q
  | _ => 0

/-- The order used by `sorted` on all-numeric keys. -/
def numLe (a b : PyVal) : Prop := numOf a ≤ numOf b

instance : DecidableRel numLe := fun a b => by unfold numLe; infer_instance

/-- The order used by `sorted` on all-string keys. -/
def pyStrLe (a b : PyVal) : Prop := strLe (pyStr a) (pyStr b)

instance : DecidableRel pyStrLe := fun a b => by unfold pyStrLe; infer_instance

/-- Python `sorted(keys)`: one element always sorts, homogeneous numbers
sort numerically, homogeneous strings lexicographically, and a mixed list
raises `TypeError` (the comparisons are unsupported). -/
def pySortVals (keys : List PyVal) : Except PyErr (List PyVal) :=
  if keys.length ≤ 1 then .ok keys
  else if keys.all isNumV then .ok (List.insertionSort numLe keys)
  else if keys.all (fun v => match v with | .vstr _ => true | _ => false) then
    .ok (List.insertionSort pyStrLe keys)
  else .error .typeError

/-- Index a version gets in the Python `version_labels` dict built by
enumeration (the last enumeration index wins on duplicates, as dict
assignment overwrites). -/
def dictLabelIndex (vs : List PyVal) (v : PyVal) : ℕ :=
  match (vs.reverse).findIdx? (fun x => pyEq x v) with
  | some i => vs.length - 1 - i
  | none => 0

/-- `version_labels[version]`: the raw name when all names are short, the
letter `B`, `C`, … keyed by enumeration index otherwise. -/
def versionLabel (use_original : Bool) (comparison_versions : List PyVal) (v : PyVal) : String :=
  if use_original then pyStr v
  else String.mk [Char.ofNat (66 + dictLabelIndex comparison_versions v)]

/-- `List.map` with the element index. -/
def mapIdxF {α β : Type} (f : ℕ → α → β) : ℕ → List α → List β
  | _, [] => []
  | i, a :: rest => f i a :: mapIdxF f (i+1) rest

/-- The body of `create_multi_comparison` inside its `try` block. -/
def mcBody (db : Db) (versions_field metrics_field : String) (value_field : Option String)
    (table_name : String) (mode : DisplayMode) (baseline : Option String) :
    Except PyErr (Option String) := do
  let version_results ← db (versionQuery versions_field table_name)
  if version_results = [] then .ok (some "No versions found")
  else do
    let versions ← rowsCol version_results 0
    if versions.length < 2 then .ok (some "Need at least 2 versions to compare")
    else do
      let sb ← selectBaseline versions baseline
      match sb with
      | .inl msg => .ok (some msg)
      | .inr (baseline_version, comparison_versions) => do
        let results ← db (mcDataQuery metrics_field versions_field (valueExprOf value_field) table_name)
        if results = [] then .ok (some "No data to compare")
        else do
          let metric_data ← buildMetricDataAux results []
          let all_versions := baseline_version :: comparison_versions
          let use_original := should_use_original_names all_versions 8
          let baseline_label := if use_original then pyStr baseline_version else "A"
          let legendLines :=
            if use_original then ([] : List String)
            else ["Baseline (A): " ++ pyStr baseline_version] ++
              mapIdxF (fun i v => String.mk [Char.ofNat (66 + i)] ++ ": " ++ pyStr v)
                0 comparison_versions ++ [""]
          let metric_width :=
            max (listMaxD (metric_data.map (fun p => (pyStr p.1).length)) 0) 7
          let baseline_values := metric_data.filterMap
            (fun p => (p.2.find? (fun q => pyEq q.1 baseline_version)).map (·.2))
          let baseline_width :=
            max (if baseline_values = [] then 8
                 else listMaxD (baseline_values.map (fun v => (pyValG6Str v).length)) 0)
              baseline_label.length
          let sortedKeys ← pySortVals (metric_data.map Prod.fst)
          let fvs := comparison_versions.map (fun version =>
            sortedKeys.map (fun metric =>
              let metric_values := dictGetM metric_data metric
              let baseline_val := dictGetPD metric_values baseline_version (.vint 0)
              let comp_val := dictGetPD metric_values version (.vint 0)
              formatCompCell mode baseline_val comp_val))
          let widths := (comparison_versions.zip fvs).map (fun pv =>
            max (if pv.2 = [] then 8 else listMaxD (pv.2.map String.length) 0)
              (versionLabel use_original comparison_versions pv.1).length)
          let header := joinSep " | "
            ([String.mk (List.replicate metric_width ' '), ljust baseline_label baseline_width] ++
              ((comparison_versions.zip widths).map (fun pw =>
                ljust (versionLabel use_original comparison_versions pw.1) pw.2)))
          let separator := joinSep "-+-"
            ([String.mk (List.replicate metric_width '-'),
              String.mk (List.replicate baseline_width '-')] ++
              widths.map (fun w => String.mk (List.replicate w '-')))
          let rows := mapIdxF (fun i metric =>
            let metric_values := dictGetM metric_data metric
            let baseline_val := dictGetPD metric_values baseline_version (.vint 0)
            let baseline_str := pyValG6Str baseline_val
            joinSep " | "
              ([ljust (pyStr metric) metric_width, ljust baseline_str baseline_width] ++
                ((fvs.zip widths).map (fun fw => ljust (fw.1.getD i "") fw.2))))
            0 sortedKeys
          .ok (some (joinSep "\n" (legendLines ++ [header, separator] ++ rows)))

/-- `create_multi_comparison` from src/uplt/charts/multi_comparison.py.
The display-mode string is parsed first, its `ValueError` caught and
defaulted to FULL; everything from the version query on runs inside
`try: … except Exception: return None`. -/
def create_multi_comparison (db : Db) (versions_field metrics_field : String)
    (value_field : Option String) (table_name : String) (display_mode : String)
    (baseline : Option String) : Except PyErr (Option String) :=
  pyTry (mcBody db versions_field metrics_field value_field table_name
    ((DisplayMode.from_string display_mode).getD .full) baseline)

/-- The spec's effective minimum: 0 when every observed value is
nonnegative (equivalently, when the observed minimum is), otherwise the
observed minimum. -/
def specEffectiveMin (v0 : ℚ) (vrest : List ℚ) : ℚ :=
  if 0 ≤ vrest.foldl min v0 then 0 else vrest.foldl min v0

/-- The amended shade index: `floor` (truncation on these nonnegative
ratios) of `(value − effectiveMin) / (max − effectiveMin) × 4`, clamped
to `[0, 4]`. -/
def specShadeIndexFloor (v0 : ℚ) (vrest : List ℚ) (v : ℚ) : ℤ :=
  max 0 (min ⌊(v - specEffectiveMin v0 vrest) /
    (vrest.foldl max v0 - specEffectiveMin v0 vrest) * 4⌋ 4)

/-- Verification fixture: an engine holding versions `A`, `B` with one
metric `m` valued 10 (baseline) and 15 (comparison). -/
def dbC4 : Db := fun q =>
  if q = versionQuery "v" "data" then .ok [[PyVal.vstr "A"], [PyVal.vstr "B"]]
  else .ok [[PyVal.vstr "m", PyVal.vstr "A", PyVal.vint 10],
            [PyVal.vstr "m", PyVal.vstr "B", PyVal.vint 15]]

/-! ## Shared lemmas -/

theorem foldl_min_le_init (l : List ℚ) : ∀ a, l.foldl min a ≤ a := by
  induction l with
  | nil => intro a; simp
  | cons b m ih =>
    intro a
    calc m.foldl min (min a b) ≤ min a b := ih (min a b)
      _ ≤ a := min_le_left _ _

theorem foldl_min_le_mem (l : List ℚ) : ∀ a x, x ∈ l → l.foldl min a ≤ x := by
  induction l with
  | nil => intro a x hx; simp at hx
  | cons b m ih =>
    intro a x hx
    rcases List.mem_cons.mp hx with h | h
    · subst h
      calc m.foldl min (min a x) ≤ min a x := foldl_min_le_init m _
        _ ≤ x := min_le_right _ _
    · exact ih (min a b) x h

theorem foldl_min_le (l : List ℚ) (a x : ℚ) (hx : x ∈ a :: l) : l.foldl min a ≤ x := by
  rcases List.mem_cons.mp hx with h | h
  · subst h; exact foldl_min_le_init l x
  · exact foldl_min_le_mem l a x h

theorem le_foldl_max_init (l : List ℚ) : ∀ a, a ≤ l.foldl max a := by
  induction l with
  | nil => intro a; simp
  | cons b m ih =>
    intro a
    calc a ≤ max a b := le_max_left _ _
      _ ≤ m.foldl max (max a b) := ih (max a b)

theorem le_foldl_max_mem (l : List ℚ) : ∀ a x, x ∈ l → x ≤ l.foldl max a := by
  induction l with
  | nil => intro a x hx; simp at hx
  | cons b m ih =>
    intro a x hx
    rcases List.mem_cons.mp hx with h | h
    · subst h
      calc x ≤ max a x := le_max_right _ _
        _ ≤ m.foldl max (max a x) := le_foldl_max_init m _
    · exact ih (max a b) x h

theorem le_foldl_max (l : List ℚ) (a x : ℚ) (hx : x ∈ a :: l) : x ≤ l.foldl max a := by
  rcases List.mem_cons.mp hx with h | h
  · subst h; exact le_foldl_max_init l x
  · exact le_foldl_max_mem l a x h

/-! ## C10 -/

/-- C10: a column whose every entry is None or a string that strips to
empty is typed TEXT by `infer_column_type`, never INTEGER or REAL. -/
theorem C10_all_blank_is_text (values : List PyVal)
    (h : ∀ v ∈ values, v = PyVal.vnone ∨ ∃ s, v = PyVal.vstr s ∧ pyStripL s.data = []) :
    infer_column_type values = "TEXT" := by
  have hfilter : values.filter
      (fun v => !(v == PyVal.vnone) && !(pyStripL (pyStr v).data == [])) = [] := by
    rw [List.filter_eq_nil_iff]
    intro v hv
    rcases h v hv with h1 | ⟨s, h1, h2⟩
    · subst h1; simp
    · subst h1; simp [pyStr, h2]
  simp only [infer_column_type]
  rw [hfilter]
  simp

/-- C10 witness: a None entry plus a whitespace-only entry. -/
theorem C10_all_blank_is_text_witness :
    infer_column_type [PyVal.vnone, PyVal.vstr "  "] = "TEXT" :=
  C10_all_blank_is_text [PyVal.vnone, PyVal.vstr "  "] (by
    intro v hv
    rcases List.mem_cons.mp hv with h | h
    · exact Or.inl h
    · refine Or.inr ⟨"  ", ?_, by decide⟩
      simpa using h)

/-! ## C9 -/

/-- C9: `detect_delimiter` returns a candidate whose total count over the
first five lines is maximal; every earlier candidate in priority order has
a strictly smaller count (Python `max` keeps the first maximum); and a
text containing no candidate at all yields `','`. -/
theorem C9_detect_delimiter (sample : String) :
    detect_delimiter sample ∈ delimCandidates ∧
    (∀ d ∈ delimCandidates,
      delimCount sample d ≤ delimCount sample (detect_delimiter sample)) ∧
    (∀ d ∈ delimCandidates,
      delimCount sample d = delimCount sample (detect_delimiter sample) →
        delimCandidates.indexOf (detect_delimiter sample) ≤ delimCandidates.indexOf d) ∧
    ((∀ d ∈ delimCandidates, delimCount sample d = 0) → detect_delimiter sample = ',') := by
  have hred : detect_delimiter sample =
      (argmaxFirst [(';', delimCount sample ';'), ('\t', delimCount sample '\t'),
        (' ', delimCount sample ' '), ('|', delimCount sample '|')]
        (',', delimCount sample ',')).1 := by
    simp [detect_delimiter, delimCandidates]
  rw [hred]
  simp only [argmaxFirst]
  split_ifs <;>
    refine ⟨by simp [delimCandidates], ?_, ?_, ?_⟩ <;>
    first
      | (intro d hd
         fin_cases hd <;> simp_all [delimCandidates] <;> omega)
      | (intro hz
         have h1 := hz ',' (by decide)
         have h2 := hz ';' (by decide)
         have h3 := hz '\t' (by decide)
         have h4 := hz ' ' (by decide)
         have h5 := hz '|' (by decide)
         simp_all [delimCandidates])

/-- C9 witness: a candidate-free text yields `','`. -/
theorem C9_detect_delimiter_witness : detect_delimiter "abc" = ',' :=
  (C9_detect_delimiter "abc").2.2.2 (by decide)

/-! ## C6 -/

theorem fbiLoopGo_some (v : ℚ) (s : List ℚ) :
    ∀ (fuel i j : ℕ), fbiLoopGo v s fuel i = some j →
      i ≤ j ∧ j < i + fuel ∧ (nth s j ≤ v ∧ v < nth s (j+1)) ∧
        ∀ k, i ≤ k → k < j → ¬ (nth s k ≤ v ∧ v < nth s (k+1)) := by
  intro fuel
  induction fuel with
  | zero => intro i j h; simp [fbiLoopGo] at h
  | succ n ih =>
    intro i j h
    by_cases hg : nth s i ≤ v ∧ v < nth s (i+1)
    · rw [fbiLoopGo, if_pos hg] at h
      cases h
      exact ⟨le_refl _, by omega, hg, fun k hk1 hk2 => by omega⟩
    · rw [fbiLoopGo, if_neg hg] at h
      obtain ⟨h1, h2, h3, h4⟩ := ih (i+1) j h
      refine ⟨by omega, by omega, h3, ?_⟩
      intro k hk1 hk2
      rcases Nat.eq_or_lt_of_le hk1 with he | hl
      · subst he; exact hg
      · exact h4 k hl hk2

theorem fbiLoopGo_none (v : ℚ) (s : List ℚ) :
    ∀ (fuel i : ℕ), fbiLoopGo v s fuel i = none →
      ∀ k, i ≤ k → k < i + fuel → ¬ (nth s k ≤ v ∧ v < nth s (k+1)) := by
  intro fuel
  induction fuel with
  | zero => intro i h k hk1 hk2; omega
  | succ n ih =>
    intro i h k hk1 hk2
    by_cases hg : nth s i ≤ v ∧ v < nth s (i+1)
    · rw [fbiLoopGo, if_pos hg] at h; cases h
    · rw [fbiLoopGo, if_neg hg] at h
      rcases Nat.eq_or_lt_of_le hk1 with he | hl
      · subst he; exact hg
      · exact ih (i+1) h k hl (by omega)

theorem hasBin_iff (v : ℚ) (s : List ℚ) :
    hasBin v s = true ↔ ∃ i, binPred v s i := by
  constructor
  · intro h
    obtain ⟨i, _, hp⟩ := List.any_eq_true.mp h
    exact ⟨i, of_decide_eq_true hp⟩
  · intro ⟨i, hp⟩
    refine List.any_eq_true.mpr ⟨i, List.mem_range.mpr ?_, decide_eq_true hp⟩
    have := hp.1
    omega

/-- C6 counterexample: the claim quantifies over every scale, but on the
empty scale `find_bin_index` raises `IndexError` (the `scale[-1]` lookup)
instead of returning `-1`. -/
theorem C6_counterexample :
    find_bin_index 0 [] = .error .indexError ∧
    (Except.error .indexError : Except PyErr ℤ) ≠ .ok (-1) := by
  refine ⟨by with_unfolding_all decide, by decide⟩

/-- C6 amended: for every value and every *nonempty* scale,
`find_bin_index` returns the first `i` with `scale[i] ≤ v < scale[i+1]`
when one exists, `len(scale) - 2` when no bin matches and `v` equals the
last edge, and `-1` otherwise; in particular
`find_bin_index 40 [0,10,20,30,40] = 3` and
`find_bin_index (-5) [0,10,20,30,40] = -1`.  (On the empty scale the
`scale[-1]` lookup raises `IndexError`.) -/
theorem C6_amended :
    (∀ (v : ℚ) (scale : List ℚ) (hne : scale ≠ []),
      (hasBin v scale = true →
        ∃ j : ℕ, find_bin_index v scale = .ok (j : ℤ) ∧ binPred v scale j ∧
          ∀ k, binPred v scale k → j ≤ k) ∧
      (hasBin v scale = false → v = scale.getLast hne →
        find_bin_index v scale = .ok ((scale.length : ℤ) - 2)) ∧
      (hasBin v scale = false → v ≠ scale.getLast hne →
        find_bin_index v scale = .ok (-1))) ∧
    find_bin_index 40 [0,10,20,30,40] = .ok 3 ∧
    find_bin_index (-5) [0,10,20,30,40] = .ok (-1) := by
  refine ⟨?_, by with_unfolding_all decide, by with_unfolding_all decide⟩
  intro v scale hne
  have hlen : 1 ≤ scale.length := List.length_pos.mpr hne
  refine ⟨?_, ?_, ?_⟩
  · intro hb
    obtain ⟨i, hi⟩ := (hasBin_iff v scale).mp hb
    cases hgo : fbiLoopGo v scale (scale.length - 1) 0 with
    | none =>
      exfalso
      have := fbiLoopGo_none v scale _ _ hgo i (Nat.zero_le _) (by have := hi.1; omega)
      exact this ⟨hi.2.1, hi.2.2⟩
    | some j =>
      obtain ⟨_, hj2, hj3, hj4⟩ := fbiLoopGo_some v scale _ _ _ hgo
      refine ⟨j, ?_, ⟨by omega, hj3.1, hj3.2⟩, ?_⟩
      · simp [find_bin_index, fbiLoop, hgo]
      · intro k hk
        by_contra hlt
        push_neg at hlt
        exact hj4 k (Nat.zero_le _) hlt ⟨hk.2.1, hk.2.2⟩
  · intro hb heq
    cases hgo : fbiLoopGo v scale (scale.length - 1) 0 with
    | some j =>
      exfalso
      obtain ⟨_, hj2, hj3, _⟩ := fbiLoopGo_some v scale _ _ _ hgo
      have : ∃ i, binPred v scale i := ⟨j, by omega, hj3.1, hj3.2⟩
      rw [← hasBin_iff] at this
      rw [this] at hb
      cases hb
    | none =>
      simp only [find_bin_index, fbiLoop]
      rw [hgo, List.getLast?_eq_getLast scale hne]
      simp [heq]
  · intro hb hne'
    cases hgo : fbiLoopGo v scale (scale.length - 1) 0 with
    | some j =>
      exfalso
      obtain ⟨_, hj2, hj3, _⟩ := fbiLoopGo_some v scale _ _ _ hgo
      have : ∃ i, binPred v scale i := ⟨j, by omega, hj3.1, hj3.2⟩
      rw [← hasBin_iff] at this
      rw [this] at hb
      cases hb
    | none =>
      simp only [find_bin_index, fbiLoop]
      rw [hgo, List.getLast?_eq_getLast scale hne]
      simp [hne']

/-- C6 witness: no bin contains 50 in `[0, 10]` and 50 is not the last
edge, so the scan falls through to `-1`. -/
theorem C6_amended_witness : find_bin_index 50 [0, 10] = .ok (-1) :=
  ((C6_amended.1 50 [0, 10] (by decide)).2.2) (by with_unfolding_all decide)
    (by with_unfolding_all decide)

/-! ## C2 -/

theorem scaleLoopFuel_head (stop step : ℚ) (fuel : ℕ) (c : ℚ) :
    (scaleLoopFuel stop step fuel c).head? = none ∨
    (scaleLoopFuel stop step fuel c).head? = some c := by
  cases fuel with
  | zero => left; rfl
  | succ n =>
    rw [scaleLoopFuel]
    by_cases h : c ≤ stop
    · right; rw [if_pos h]; rfl
    · left; rw [if_neg h]; rfl

theorem scaleLoopFuel_chain (stop step : ℚ) (hstep : 0 < step) :
    ∀ (fuel : ℕ) (c : ℚ), List.Chain' (· < ·) (scaleLoopFuel stop step fuel c) := by
  intro fuel
  induction fuel with
  | zero => intro c; simp [scaleLoopFuel]
  | succ n ih =>
    intro c
    rw [scaleLoopFuel]
    by_cases h : c ≤ stop
    · rw [if_pos h]
      rw [List.chain'_cons']
      refine ⟨?_, ih (c + step)⟩
      intro y hy
      rcases scaleLoopFuel_head stop step n (c + step) with hh | hh
      · rw [hh] at hy; cases hy
      · rw [hh] at hy
        cases hy
        linarith
    · rw [if_neg h]; simp

theorem niceStep_pos (q : ℚ) : 0 < niceStep q := by
  unfold niceStep
  split_ifs <;> norm_num

/-- C2 counterexample: for the degenerate negative case the scale is
descending, not ascending: `create_numeric_scale (-10) (-10) = [-9, -10,
-11]`. -/
theorem C2_counterexample :
    create_numeric_scale (-10) (-10) 10 = [-9, -10, -11] ∧
    ¬ List.Sorted (· ≤ ·) (create_numeric_scale (-10) (-10) 10) := by
  constructor
  · with_unfolding_all decide
  · intro h
    have h9 : (-9 : ℚ) ≤ -10 := by
      have hmem : (-10 : ℚ) ∈ [(-10 : ℚ), -11] := by simp
      have := (List.sorted_cons.mp (by
        have he : create_numeric_scale (-10) (-10) 10 = [-9, -10, -11] := by
          with_unfolding_all decide
        rw [he] at h
        exact h)).1
      exact this (-10) hmem
    linarith

/-- C2 amended: `create_numeric_scale` is strictly ascending whenever
`min < max`; the degenerate scale is `[0]` for `min = max = 0` and
`[0.9v, v, 1.1v]` for `min = max = v ≠ 0`, which is ascending exactly for
positive `v` and descending for negative `v`. -/
theorem C2_amended :
    (∀ (mn mx : ℚ) (ts : ℕ), mn < mx → 0 < ts →
      List.Chain' (· < ·) (create_numeric_scale mn mx ts)) ∧
    (∀ ts, create_numeric_scale 0 0 ts = [0]) ∧
    (∀ (v : ℚ) (ts : ℕ), v ≠ 0 →
      create_numeric_scale v v ts = [v * (9/10), v, v * (11/10)] ∧
      (0 < v → List.Chain' (· < ·) [v * (9/10), v, v * (11/10)]) ∧
      (v < 0 → List.Chain' (· > ·) [v * (9/10), v, v * (11/10)])) := by
  refine ⟨?_, ?_, ?_⟩
  · intro mn mx ts hlt _
    rw [create_numeric_scale, if_neg (ne_of_lt hlt)]
    have hmag : (0:ℚ) < (10:ℚ) ^ (intLog10 ((mx - mn) / (ts : ℚ))) :=
      zpow_pos (by norm_num) _
    have hstep : 0 < niceStep ((mx - mn) / (ts : ℚ) / (10:ℚ) ^ (intLog10 ((mx - mn) / (ts : ℚ)))) *
        (10:ℚ) ^ (intLog10 ((mx - mn) / (ts : ℚ))) :=
      mul_pos (niceStep_pos _) hmag
    exact scaleLoopFuel_chain _ _ hstep _ _
  · intro ts
    simp [create_numeric_scale]
  · intro v ts hv
    refine ⟨by rw [create_numeric_scale, if_pos rfl, if_neg hv], ?_, ?_⟩
    · intro hpos
      simp only [List.chain'_cons, List.chain'_singleton, and_true]
      constructor <;> nlinarith
    · intro hneg
      simp only [List.chain'_cons, List.chain'_singleton, and_true]
      constructor <;> nlinarith

/-- C2 witness: a strictly ascending scale produced for `0 < 10` and the
degenerate positive case at `v = 1`. -/
theorem C2_amended_witness :
    List.Chain' (· < ·) (create_numeric_scale 0 10 10) ∧
    create_numeric_scale 1 1 10 = [9/10, 1, 11/10] := by
  constructor
  · exact C2_amended.1 0 10 10 (by norm_num) (by norm_num)
  · have h := (C2_amended.2.2 1 10 (by norm_num)).1
    rw [h]
    norm_num

/-! ## C1 -/

/-- C1 counterexample: for observed values `{0, 9, 10}` (distinct min and
max, effectiveMin 0) the cell with value 9 has claimed index
`round(9/10 × 4) = 4`, i.e. `'█'`, but the code truncates and renders
`'▓'`. -/
theorem C1_counterexample :
    cellChar [0, 9, 10] 9 = '▓' ∧
    round (((9:ℚ) - 0) / (10 - 0) * 4) = 4 ∧
    " ░▒▓█".data.getD 4 ' ' = '█' ∧ ('▓' : Char) ≠ '█' := by
  refine ⟨by with_unfolding_all decide, by with_unfolding_all decide, by decide, by decide⟩

/-- C1 amended: for a filled cell holding `v` among observed values
`v0 :: vrest`, when the effective minimum differs from the maximum the
glyph is the ramp `" ░▒▓█"` at index `floor((v − effectiveMin) / (max −
effectiveMin) × 4)` clamped to `[0, 4]` (floor, not round), and when the
effective minimum equals the maximum the middle glyph `'▒'` is used. -/
theorem C1_amended (v0 : ℚ) (vrest : List ℚ) (v : ℚ) (hv : v ∈ v0 :: vrest) :
    (specEffectiveMin v0 vrest ≠ vrest.foldl max v0 →
      cellChar (v0 :: vrest) v =
        " ░▒▓█".data.getD (specShadeIndexFloor v0 vrest v).toNat ' ') ∧
    (specEffectiveMin v0 vrest = vrest.foldl max v0 →
      cellChar (v0 :: vrest) v = '▒') := by
  have hmn_le_v : vrest.foldl min v0 ≤ v := foldl_min_le vrest v0 v hv
  have hv_le_mx : v ≤ vrest.foldl max v0 := le_foldl_max vrest v0 v hv
  have heff_le : specEffectiveMin v0 vrest ≤ vrest.foldl min v0 := by
    unfold specEffectiveMin
    split_ifs with h
    · exact h
    · exact le_refl _
  constructor
  · intro hne
    have heff_lt : specEffectiveMin v0 vrest < vrest.foldl max v0 :=
      lt_of_le_of_ne (le_trans heff_le (le_trans hmn_le_v hv_le_mx)) hne
    have hnn : 0 ≤ (v - specEffectiveMin v0 vrest) /
        (vrest.foldl max v0 - specEffectiveMin v0 vrest) * 4 := by
      apply mul_nonneg
      · apply div_nonneg
        · linarith
        · linarith
      · norm_num
    simp only [cellChar, shadeChar, specEffectiveMin, specShadeIndexFloor] at *
    rw [if_neg (by simpa using hne)]
    have hlen : (" ░▒▓█".length : ℚ) - 1 = 4 := by norm_num [String.length]
    have hlen2 : (" ░▒▓█".length : ℤ) - 1 = 4 := by norm_num [String.length]
    rw [hlen, hlen2]
    have htr : pyTrunc ((v - (if 0 ≤ vrest.foldl min v0 then 0 else vrest.foldl min v0)) /
        (vrest.foldl max v0 - (if 0 ≤ vrest.foldl min v0 then 0 else vrest.foldl min v0)) * 4) =
        ⌊(v - (if 0 ≤ vrest.foldl min v0 then 0 else vrest.foldl min v0)) /
        (vrest.foldl max v0 - (if 0 ≤ vrest.foldl min v0 then 0 else vrest.foldl min v0)) * 4⌋ := by
      unfold pyTrunc
      rw [if_pos (by simpa using hnn)]
    rw [htr]
  · intro heqq
    simp only [cellChar, shadeChar, specEffectiveMin] at *
    rw [if_pos (by simpa using heqq)]
    rfl

/-- C1 witness: values `{1, 2}`, cell value 1: effectiveMin 0,
index `floor(1/2 × 4) = 2`, the middle glyph. -/
theorem C1_amended_witness : cellChar [1, 2] 1 = '▒' := by
  have h := (C1_amended 1 [2] 1 (by simp)).1 (by with_unfolding_all decide)
  rw [h]
  with_unfolding_all decide

/-! ## C4 -/

/-- C4 counterexample: at baseline 0 and comparison 0 the cell renders
`"0 (+0.0%)"` — the percentage part is `"+0.0%"`, not the claimed `"0"`
(nor is the cell `"0 (0%)"` or `"0"`). -/
theorem C4_counterexample :
    formatCompCell .value_percent (.vint 0) (.vint 0) = "0 (+0.0%)" ∧
    ("0 (+0.0%)" : String) ≠ "0 (0%)" ∧ ("0 (+0.0%)" : String) ≠ "0" := by
  refine ⟨by with_unfolding_all decide, by decide, by decide⟩

/-- C4 amended: under value-percent a numeric comparison cell renders
`"<value> (<±pct>%)"` with `pct = (comparison − baseline)/baseline × 100`
formatted with sign and one decimal; baseline 0 with nonzero diff renders
the `"inf%"` sentinel, and baseline 0 with zero diff renders pct as 0,
i.e. `"(+0.0%)"`; for baseline 10 and comparison 15 the cell is exactly
`"15 (+50.0%)"`. -/
theorem C4_amended :
    (∀ b c : ℚ, formatCompCell .value_percent (.vnum b) (.vnum c) =
      (if b = 0 ∧ c - b ≠ 0 then pyG6 c ++ " (inf%)"
       else pyG6 c ++ " (" ++ pyPlus1f (if b = 0 then 0 else (c - b) / b * 100) ++ "%)")) ∧
    formatCompCell .value_percent (.vint 10) (.vint 15) = "15 (+50.0%)" ∧
    create_multi_comparison dbC4 "v" "m" none "data" "value-percent" none =
      .ok (some ("        | A  | B          \n--------+----+------------\nm       | 10 | 15 (+50.0%)")) := by
  refine ⟨?_, by with_unfolding_all decide, by with_unfolding_all decide⟩
  · intro b c
    by_cases hb : b = 0
    · by_cases hd : c - b = 0
      · simp [formatCompCell, pyFloat, pyValG6Str, hb, hd]
      · simp [formatCompCell, pyFloat, pyValG6Str, hb, hd]
    · simp [formatCompCell, pyFloat, pyValG6Str, hb]

/-! ## C5 -/

/-- C5: `create_heatmap` and `create_multi_comparison` never let an
exception escape: whatever the SQL engine returns (rows of any shape or
an engine error for either query), the result is `.ok` — and an engine
error on the very first query yields the null chart. -/
theorem C5_no_exception :
    (∀ (db : Db) (x_field y_field : String) (value_field : Option String)
        (table_name : String) (width height : Option ℕ),
      ∃ r : Option String,
        create_heatmap db x_field y_field value_field table_name width height = .ok r) ∧
    (∀ (db : Db) (versions_field metrics_field : String) (value_field : Option String)
        (table_name display_mode : String) (baseline : Option String),
      ∃ r : Option String,
        create_multi_comparison db versions_field metrics_field value_field table_name
          display_mode baseline = .ok r) ∧
    (∀ (db : Db) (x y : String) (v : Option String) (t : String) (w h : Option ℕ)
        (e : PyErr), db (rangeQuery x y t) = .error e →
      create_heatmap db x y v t w h = .ok none) ∧
    (∀ (db : Db) (vf mf : String) (v : Option String) (t dm : String)
        (b : Option String) (e : PyErr), db (versionQuery vf t) = .error e →
      create_multi_comparison db vf mf v t dm b = .ok none) := by
  refine ⟨?_, ?_, ?_, ?_⟩
  · intro db x y v t w h
    cases hb : heatmapBody db x y v t w h with
    | ok r => exact ⟨r, by simp [create_heatmap, pyTry, hb]⟩
    | error e => exact ⟨none, by simp [create_heatmap, pyTry, hb]⟩
  · intro db vf mf v t dm b
    cases hb : mcBody db vf mf v t ((DisplayMode.from_string dm).getD .full) b with
    | ok r => exact ⟨r, by simp [create_multi_comparison, pyTry, hb]⟩
    | error e => exact ⟨none, by simp [create_multi_comparison, pyTry, hb]⟩
  · intro db x y v t w h e hdb
    unfold create_heatmap heatmapBody
    rw [hdb]
    rfl
  · intro db vf mf v t dm b e hdb
    unfold create_multi_comparison mcBody
    rw [hdb]
    rfl

/-- C5 witness: an engine that always errors still produces `.ok none`. -/
theorem C5_no_exception_witness :
    create_heatmap (fun _ => .error .valueError) "x" "y" none "data" none none = .ok none :=
  C5_no_exception.2.2.1 (fun _ => .error .valueError) "x" "y" none "data" none none
    .valueError rfl

/-! ## C8 -/

theorem ok_bind {ε α β : Type} (a : α) (f : α → Except ε β) :
    (Except.ok a >>= f : Except ε β) = f a := rfl

theorem rowsCol_map_vstr (vs : List String) :
    rowsCol (vs.map (fun v => [PyVal.vstr v])) 0 = .ok (vs.map PyVal.vstr) := by
  induction vs with
  | nil => rfl
  | cons v rest ih =>
    simp only [List.map_cons, rowsCol]
    rw [show pyIndex [PyVal.vstr v] (0 : ℤ) = .ok (PyVal.vstr v) from rfl]
    rw [ih]
    rfl

/-- C8: the version-count messages, the baseline-override error string,
and the baseline choice of `create_multi_comparison`: zero versions give
"No versions found", one gives "Need at least 2 versions to compare", an
unknown override returns the error string naming the available versions
(no exception), a known override becomes the baseline with the other
versions comparing, and without an override the first version of the
(ORDER BY-sorted) query result is the baseline. -/
theorem C8_versions_and_baseline :
    (∀ (db : Db) (vf mf : String) (v : Option String) (t dm : String) (b : Option String),
      db (versionQuery vf t) = .ok [] →
      create_multi_comparison db vf mf v t dm b = .ok (some "No versions found")) ∧
    (∀ (db : Db) (vf mf : String) (v : Option String) (t dm : String) (b : Option String)
        (w : PyVal), db (versionQuery vf t) = .ok [[w]] →
      create_multi_comparison db vf mf v t dm b =
        .ok (some "Need at least 2 versions to compare")) ∧
    (∀ (db : Db) (vf mf : String) (v : Option String) (t dm : String) (b : String)
        (vs : List String), b ≠ "" → 2 ≤ vs.length → b ∉ vs →
      db (versionQuery vf t) = .ok (vs.map (fun x => [PyVal.vstr x])) →
      create_multi_comparison db vf mf v t dm (some b) =
        .ok (some ("Baseline version \x27" ++ b ++
          "\x27 not found. Available versions: " ++ joinSep ", " vs))) ∧
    (∀ (versions : List PyVal) (b : String), b ≠ "" →
      versions.any (fun v => pyEq v (.vstr b)) = true →
      selectBaseline versions (some b) =
        .ok (.inr (.vstr b, versions.filter (fun v => !(pyEq v (.vstr b)))))) ∧
    (∀ (v0 : PyVal) (rest : List PyVal),
      selectBaseline (v0 :: rest) none = .ok (.inr (v0, rest))) ∧
    (∀ (vf t : String), "ORDER BY".data <:+: (versionQuery vf t).data) := by
  refine ⟨?_, ?_, ?_, ?_, ?_, ?_⟩
  · intro db vf mf v t dm b hdb
    unfold create_multi_comparison mcBody
    rw [hdb]
    rfl
  · intro db vf mf v t dm b w hdb
    unfold create_multi_comparison mcBody
    rw [hdb]
    rfl
  · intro db vf mf v t dm b vs hb hlen hnotin hdb
    have hvs_ne : vs.map (fun x => [PyVal.vstr x]) ≠ [] := by
      intro h
      rw [List.map_eq_nil_iff] at h
      subst h
      simp at hlen
    have hany : (vs.map PyVal.vstr).any (fun v => pyEq v (.vstr b)) = false := by
      rw [List.any_eq_false]
      intro x hx
      obtain ⟨y, hy, rfl⟩ := List.mem_map.mp hx
      intro hcontra
      simp only [pyEq, beq_iff_eq] at hcontra
      exact hnotin (hcontra ▸ hy)
    have hall : (vs.map PyVal.vstr).all
        (fun v => match v with | .vstr _ => true | _ => false) = true := by
      rw [List.all_eq_true]
      intro x hx
      obtain ⟨y, hy, rfl⟩ := List.mem_map.mp hx
      rfl
    have hmm : (vs.map PyVal.vstr).map pyStr = vs := by
      rw [List.map_map]
      have : pyStr ∘ PyVal.vstr = id := by
        funext x
        rfl
      rw [this, List.map_id]
    have hsel : selectBaseline (vs.map PyVal.vstr) (some b) =
        .ok (.inl ("Baseline version \x27" ++ b ++
          "\x27 not found. Available versions: " ++ joinSep ", " vs)) := by
      rw [selectBaseline]
      rw [if_neg hb, if_neg (by simp [hany])]
      unfold pyJoinStr
      rw [if_pos hall, hmm]
      rfl
    unfold create_multi_comparison mcBody
    rw [hdb, ok_bind]
    rw [if_neg hvs_ne]
    rw [rowsCol_map_vstr, ok_bind]
    rw [if_neg (show ¬ (vs.map PyVal.vstr).length < 2 by simp; omega)]
    rw [hsel, ok_bind]
    rfl
  · intro versions b hb hany
    rw [selectBaseline]
    rw [if_neg hb, if_pos hany]
  · intro v0 rest
    rfl
  · intro vf t
    refine ⟨("\n    SELECT DISTINCT ").data ++ vf.data ++ ("\n    FROM ").data ++
      t.data ++ ("\n    WHERE ").data ++ vf.data ++ (" IS NOT NULL\n    ").data,
      (" ").data ++ vf.data ++ ("\n    ").data, ?_⟩
    simp only [versionQuery, String.data_append, List.append_assoc]
    rfl

/-- C8 witness: an engine returning no versions yields the literal
"No versions found". -/
theorem C8_versions_and_baseline_witness :
    create_multi_comparison (fun _ => .ok []) "v" "m" none "data" "value-percent" none =
      .ok (some "No versions found") :=
  C8_versions_and_baseline.1 (fun _ => .ok []) "v" "m" none "data" "value-percent" none rfl

/-! ## C3 -/

theorem specSplitAux_ne_nil (cs : List Char) (d : ℤ) (q : Option Char) :
    specSplitAux cs d q ≠ [] := by
  cases cs with
  | nil => simp [specSplitAux]
  | cons c rest =>
    rw [specSplitAux]
    by_cases h : quoteUpdate c q = none ∧ c = ',' ∧ d = 0
    · rw [if_pos h]; simp
    · rw [if_neg h]
      cases hss : specSplitAux rest
          (if quoteUpdate c q = none ∧ c = '(' then d + 1
           else if quoteUpdate c q = none ∧ c = ')' then d - 1 else d)
          (quoteUpdate c q) with
      | nil => simp
      | cons a l => simp

theorem glueHead_nil (l : List (List Char)) (h : l ≠ []) : glueHead [] l = l := by
  cases l with
  | nil => exact absurd rfl h
  | cons a m => simp [glueHead]

theorem dropEmptyTail_cons (a : String) (l : List String) (h : l ≠ []) :
    dropEmptyTail (a :: l) = a :: dropEmptyTail l := by
  cases l with
  | nil => exact absurd rfl h
  | cons b m =>
    simp only [dropEmptyTail]
    rw [List.getLast?_cons_cons]
    by_cases h2 : (b :: m).getLast? = some ""
    · rw [if_pos h2, if_pos h2]
      rfl
    · rw [if_neg h2, if_neg h2]

theorem splitLoop_spec (cs : List Char) :
    ∀ (exprs : List String) (cur : List Char) (d : ℤ) (q : Option Char),
    splitLoop cs exprs cur d q =
      exprs ++ dropEmptyTail ((glueHead cur (specSplitAux cs d q)).map
        (fun seg => String.mk (pyStripL seg))) := by
  induction cs with
  | nil =>
    intro exprs cur d q
    rw [splitLoop, specSplitAux]
    simp only [glueHead, List.append_nil, List.map]
    by_cases hc : pyStripL cur = []
    · rw [if_pos hc]
      have he : String.mk (pyStripL cur) = "" := by rw [hc]
      simp [dropEmptyTail, he]
    · rw [if_neg hc]
      have he : ¬ (String.mk (pyStripL cur) = "") := by
        intro h
        apply hc
        simpa using congrArg String.data h
      simp [dropEmptyTail, he]
  | cons c rest ih =>
    intro exprs cur d q
    rw [splitLoop, specSplitAux]
    by_cases hq : quoteUpdate c q = none
    · by_cases hpar : c = '('
      · have hnc : ¬(quoteUpdate c q = none ∧ c = ',' ∧ d = 0) := by
          rintro ⟨-, hc2, -⟩
          rw [hpar] at hc2
          exact absurd hc2 (by decide)
        rw [if_pos hq, if_pos hpar, if_neg hnc,
          if_pos (And.intro hq hpar)]
        obtain ⟨seg, segs, hss⟩ := List.exists_cons_of_ne_nil
          (specSplitAux_ne_nil rest (d + 1) (quoteUpdate c q))
        rw [ih, hss]
        simp [glueHead, List.append_assoc]
      · by_cases hpar2 : c = ')'
        · have hnc : ¬(quoteUpdate c q = none ∧ c = ',' ∧ d = 0) := by
            rintro ⟨-, hc2, -⟩
            rw [hpar2] at hc2
            exact absurd hc2 (by decide)
          rw [if_pos hq, if_neg hpar, if_pos hpar2, if_neg hnc,
            if_neg (fun h => hpar h.2), if_pos (And.intro hq hpar2)]
          obtain ⟨seg, segs, hss⟩ := List.exists_cons_of_ne_nil
            (specSplitAux_ne_nil rest (d - 1) (quoteUpdate c q))
          rw [ih, hss]
          simp [glueHead, List.append_assoc]
        · by_cases hcd : c = ',' ∧ d = 0
          · rw [if_pos hq, if_neg hpar, if_neg hpar2, if_pos hcd,
              if_pos (And.intro hq (And.intro hcd.1 hcd.2))]
            rw [ih]
            have hne : specSplitAux rest d (quoteUpdate c q) ≠ [] :=
              specSplitAux_ne_nil rest d (quoteUpdate c q)
            have hne2 : (specSplitAux rest d (quoteUpdate c q)).map
                (fun seg => String.mk (pyStripL seg)) ≠ [] := by
              intro h
              exact hne (List.map_eq_nil_iff.mp h)
            rw [glueHead_nil _ hne]
            simp only [glueHead, List.map]
            rw [dropEmptyTail_cons _ _ hne2]
            simp [List.append_nil]
          · rw [if_pos hq, if_neg hpar, if_neg hpar2, if_neg hcd,
              if_neg (fun h => hcd (And.intro h.2.1 h.2.2)),
              if_neg (fun h => hpar h.2), if_neg (fun h => hpar2 h.2)]
            obtain ⟨seg, segs, hss⟩ := List.exists_cons_of_ne_nil
              (specSplitAux_ne_nil rest d (quoteUpdate c q))
            rw [ih, hss]
            simp [glueHead, List.append_assoc]
    · rw [if_neg hq,
        if_neg (fun h => hq h.1),
        if_neg (fun h => hq h.1), if_neg (fun h => hq h.1)]
      obtain ⟨seg, segs, hss⟩ := List.exists_cons_of_ne_nil
        (specSplitAux_ne_nil rest d (quoteUpdate c q))
      rw [ih, hss]
      simp [glueHead, List.append_assoc]

/-- C3: `split_expressions` splits exactly at commas at parenthesis depth
0 outside quoted spans, trims every segment, and drops a final segment
that trims to empty while keeping a leading empty segment; in particular
the four examples of the claim hold.  `specSplit` is the spec-side
description (raw top-level segments, trimmed, empty tail dropped). -/
theorem C3_split_expressions :
    (∀ s : String, split_expressions s = specSplit s) ∧
    split_expressions "" = [] ∧
    split_expressions "a, b," = ["a", "b"] ∧
    split_expressions ",a" = ["", "a"] ∧
    split_expressions "IIF(a>0,\x27yes\x27,\x27no\x27), b" =
      ["IIF(a>0,\x27yes\x27,\x27no\x27)", "b"] := by
  refine ⟨?_, by decide, by decide, by decide, by decide⟩
  intro s
  rw [split_expressions, specSplit, splitLoop_spec]
  rw [glueHead_nil _ (specSplitAux_ne_nil _ _ _)]
  rfl

/-! ## C7 -/

theorem takeWhile_all_append (p : Char → Bool) (l1 : List Char) (c : Char) (l2 : List Char)
    (h1 : ∀ x ∈ l1, p x = true) (h2 : p c = false) :
    (l1 ++ c :: l2).takeWhile p = l1 ∧ (l1 ++ c :: l2).dropWhile p = c :: l2 := by
  induction l1 with
  | nil =>
    simp only [List.nil_append]
    rw [List.takeWhile_cons, List.dropWhile_cons]
    simp [h2]
  | cons a l1' ih =>
    have ha : p a = true := h1 a (List.mem_cons_self _ _)
    obtain ⟨iht, ihd⟩ := ih (fun x hx => h1 x (List.mem_cons_of_mem _ hx))
    simp only [List.cons_append]
    rw [List.takeWhile_cons, List.dropWhile_cons]
    simp [ha, iht, ihd]

/-- C7: `parse_aggregation` returns `(lowered name, trimmed args)` for a
string whose stripped form is a single whitelisted call `name(args)`
spanning the whole string (one level unwrapped only), and
`(None, stripped input)` for every other string (`isAggCall` is the
claim-side matcher); the claim's examples hold. -/
theorem C7_parse_aggregation :
    (∀ (s name args : String),
      pyStrip s = name ++ "(" ++ args ++ ")" →
      name ≠ "" →
      (∀ c ∈ name.data, isWordChar c = true) →
      args ≠ "" →
      '\n' ∉ args.data →
      String.mk (name.data.map lowerChar) ∈ validFuncs →
      parse_aggregation s = (some (String.mk (name.data.map lowerChar)), pyStrip args)) ∧
    (∀ s : String, isAggCall (pyStrip s) = false →
      parse_aggregation s = (none, pyStrip s)) ∧
    parse_aggregation "avg(price)" = (some "avg", "price") ∧
    parse_aggregation "upper(name)" = (none, "upper(name)") ∧
    parse_aggregation "avg(abs(value))" = (some "avg", "abs(value)") := by
  refine ⟨?_, ?_, by decide, by decide, by decide⟩
  · intro s name args hdec hname hword hargs hnl hfunc
    have hdata : pyStripL s.data = name.data ++ '(' :: (args.data ++ [')']) := by
      have h := congrArg String.data hdec
      simpa [pyStrip] using h
    have hnd : name.data ≠ [] := by
      intro h
      apply hname
      cases name
      simp at h
      simp [h]
    have had : args.data ≠ [] := by
      intro h
      apply hargs
      cases args
      simp at h
      simp [h]
    obtain ⟨ht, hd⟩ := takeWhile_all_append isWordChar name.data '(' (args.data ++ [')'])
      hword (by decide)
    rw [parse_aggregation]
    split
    · rename_i rest2 heq
      rw [hdata, hd] at heq
      cases heq
      rw [hdata, ht]
      rw [if_pos ⟨hnd, List.getLast?_concat _, by rw [List.dropLast_concat]; exact had,
        by rw [List.dropLast_concat]; exact hnl⟩]
      rw [if_pos hfunc]
      rw [List.dropLast_concat]
      rfl
    · rename_i hne
      exfalso
      exact hne (args.data ++ [')']) (by rw [hdata, hd])
  · intro s hfalse
    rw [parse_aggregation]
    split
    · rename_i rest2 heq
      by_cases hcond : (pyStripL s.data).takeWhile isWordChar ≠ [] ∧
          rest2.getLast? = some ')' ∧ rest2.dropLast ≠ [] ∧ ¬ ('\n' ∈ rest2.dropLast)
      · by_cases hfn : String.mk (((pyStripL s.data).takeWhile isWordChar).map lowerChar) ∈
            validFuncs
        · exfalso
          have hcall : isAggCall (pyStrip s) = true := by
            have hps : (pyStrip s).data = pyStripL s.data := rfl
            unfold isAggCall
            rw [hps]
            set N := (pyStripL s.data).takeWhile isWordChar with hN
            have hsplit : pyStripL s.data = N ++ '(' :: rest2 := by
              conv_lhs => rw [← List.takeWhile_append_dropWhile (p := isWordChar)
                (l := pyStripL s.data)]
              rw [heq]
            have hall : N.all isWordChar = true := by
              rw [List.all_eq_true]
              intro x hx
              rw [hN] at hx
              exact List.mem_takeWhile_imp hx
            rw [List.any_eq_true]
            refine ⟨N.length, ?_, ?_⟩
            · rw [List.mem_range]
              conv_rhs => rw [hsplit]
              simp
            · beta_reduce
              rw [hsplit, List.take_left, List.drop_left]
              simp only [Bool.and_eq_true]
              refine ⟨⟨?_, hall⟩, ?_⟩
              · simpa using hcond.1
              · simp [hcond.2.1, hcond.2.2.1, hcond.2.2.2, hfn]
          rw [hcall] at hfalse
          cases hfalse
        · rw [if_pos hcond, if_neg hfn]
          rfl
      · rw [if_neg hcond]
        rfl
    · rfl

/-- C7 witness: a whitelisted call with surrounding whitespace resolves
through the first clause. -/
theorem C7_parse_aggregation_witness : parse_aggregation " avg( x ) " = (some "avg", "x") := by
  have h := C7_parse_aggregation.1 " avg( x ) " "avg" " x " (by decide) (by decide)
    (by decide) (by decide) (by decide) (by decide)
  exact h.trans (by decide)

/-! ## Pipeline evaluation -/

/-- End-to-end evaluation of the heatmap renderer on pre-aggregated data
over the scale `[1, 1.5, 2]` for both axes: grid placement via
`find_bin_index`, the reversed y-axis, zero-anchored shading, axis-range
lines and the glyph legend all evaluate to the exact rendered text. -/
theorem heatmap_render_eval :
    create_heatmap_without_aggregation
      [[PyVal.vnum 1, PyVal.vnum 1, PyVal.vint 10], [PyVal.vnum 2, PyVal.vnum 2, PyVal.vint 30]]
      (some [1, 3/2, 2]) (some [1, 3/2, 2]) " ░▒▓█" =
    .ok ("       1 1.5\n    --------\n  2|    ███ \n1.5|░░░     \n\nX-axis: 1 to 2\nY-axis: 1 to 2\nValue scale: \x27 \x27: [0, 6)  \x27░\x27: [6, 12)  \x27▒\x27: [12, 18)  \x27▓\x27: [18, 24)  \x27█\x27: [24, 30]") := by
  with_unfolding_all decide

end Uplt
